import Mathlib

/-!
Verification of the auto-assistent car-listing pipeline.

A shallow embedding of the scraper / store / query-service code
(`scraper/main.py`, `backend/main.py`, `bot/main.py`) together with proofs
of the behavioural claims made about it: field extraction with fallbacks,
the identity-keyed batch upsert, cursor pagination, and the bot's filtered
search.  Python strings are modelled as Lean `String`s restricted to the
behaviour the code exercises (ASCII case folding, decimal digit tests);
the database is modelled as an explicit list of rows with an id counter,
and SQL clauses (`WHERE`, `ORDER BY`, `LIMIT`, `ILIKE`) as list filters,
a sort, a prefix, and case-insensitive substring containment.
-/

namespace AutoAssist

/-! ## String primitives

`Char`-list based so every predicate evaluates by `decide` in the kernel.
-/

/-- ASCII lower-casing of one character (`str.lower()` restricted to the
ASCII range the stored canonical values use). -/
def lowerChar (c : Char) : Char :=
  if 'A' ≤ c && c ≤ 'Z' then Char.ofNat (c.toNat + 32) else c

/-- ASCII lower-casing of a character list. -/
def lowerList (l : List Char) : List Char := l.map lowerChar

/-- Tests whether `needle` occurs at the head of `hay`. -/
def prefixAt : List Char → List Char → Bool
  | [], _ => true
  | _ :: _, [] => false
  | a :: as, b :: bs => a == b && prefixAt as bs

/-- Tests whether `needle` occurs somewhere inside `hay` (substring containment,
Python's `needle in hay`). -/
def subOccurs (needle : List Char) : List Char → Bool
  | [] => needle.isEmpty
  | c :: rest => prefixAt needle (c :: rest) || subOccurs needle rest

/-- Case-sensitive substring test on strings: Python's `needle in hay`. -/
def containsStr (hay needle : String) : Bool :=
  subOccurs needle.data hay.data

/-- Case-insensitive substring test: the semantics of SQL
`hay ILIKE '%needle%'` as both query functions use it (the pattern is the
filter value wrapped in `%`; filter values carrying their own wildcard
characters are outside the modelled vocabulary). -/
def containsCI (hay needle : String) : Bool :=
  subOccurs (lowerList needle.data) (lowerList hay.data)

theorem subOccurs_nil_needle : ∀ hay : List Char, subOccurs [] hay = true
  | [] => rfl
  | _ :: rest => by simp [subOccurs, prefixAt, subOccurs_nil_needle rest]

/-- The empty needle is a substring of everything, so an `ILIKE '%%'`
filter accepts every row. -/
theorem containsCI_empty (hay : String) : containsCI hay "" = true := by
  simp [containsCI, lowerList, subOccurs_nil_needle]

/-! ## The colour vocabulary and colour extraction (scraper/main.py 26–48, 161–172) -/

/-- The `COLOR_MAP` table: the source-vocabulary → canonical-colour table, in the
source's (insertion-order preserving) iteration order. -/
def COLOR_MAP : List (String × String) :=
  [("白", "White"), ("ホワイト", "White"),
   ("黒", "Black"), ("ブラック", "Black"),
   ("銀", "Silver"), ("シルバー", "Silver"),
   ("赤", "Red"), ("レッド", "Red"),
   ("青", "Blue"), ("ブルー", "Blue"),
   ("緑", "Green"), ("グリーン", "Green"),
   ("黄", "Yellow"), ("イエロー", "Yellow"),
   ("灰", "Gray"), ("グレー", "Gray"),
   ("茶", "Brown"), ("ブラウン", "Brown"),
   ("パール", "Pearl"), ("ゴールド", "Gold")]

/-- The inner loop over `COLOR_MAP.items()`: the canonical colour of the
first table key contained in the item's text, if any key matches. -/
def colorOfItem (text : String) : Option String :=
  (COLOR_MAP.find? fun kv => containsStr text kv.1).map Prod.snd

/-- The outer loop over `carBodyInfoList` items: `color` starts as
`'Silver'`; each item overwrites it with that item's first-matching table
colour (if any); the loop breaks only once `color != 'Silver'`. -/
def extractColorLoop : List String → String → String
  | [], c => c
  | t :: rest, c =>
    let c' := match colorOfItem t with
      | some en => en
      | none => c
    if c' ≠ "Silver" then c' else extractColorLoop rest c'

/-- Colour extraction for one fragment (scraper/main.py 161–172). -/
def extractColor (items : List String) : String :=
  extractColorLoop items "Silver"

/-- The claim's colour rule, written from its own words: the first item
matching any table key wins and its canonical mapped colour is the result;
`'Silver'` if no item matches any key.  Kept separate from `extractColor`
(which embeds the source) so the two can be compared. -/
def specColorFirstMatch (items : List String) : String :=
  (items.findSome? colorOfItem).getD "Silver"

/-- What the loop actually computes: the first item whose mapped colour is
not `'Silver'` wins; otherwise the result is `'Silver'`. -/
def firstNonSilverColor (items : List String) : String :=
  (items.findSome? fun t => (colorOfItem t).filter fun c => c ≠ "Silver").getD "Silver"

theorem extractColorLoop_silver (items : List String) :
    extractColorLoop items "Silver" = firstNonSilverColor items := by
  induction items with
  | nil => rfl
  | cons t rest ih =>
    simp only [extractColorLoop, firstNonSilverColor, List.findSome?_cons]
    cases h : colorOfItem t with
    | none => simpa [firstNonSilverColor] using ih
    | some en =>
      by_cases hs : en = "Silver"
      · subst hs
        simpa [Option.filter, firstNonSilverColor] using ih
      · simp [hs, Option.filter]

/-- Every colour value in the table is a nonempty canonical name. -/
theorem COLOR_MAP_values_nonempty :
    ∀ kv ∈ COLOR_MAP, kv.2 ≠ "" := by decide

theorem colorOfItem_nonempty {t : String} {c : String}
    (h : colorOfItem t = some c) : c ≠ "" := by
  unfold colorOfItem at h
  cases hf : COLOR_MAP.find? fun kv => containsStr t kv.1 with
  | none => simp [hf] at h
  | some kv =>
    have hkv : kv.2 = c := by simpa [hf] using h
    exact hkv ▸ COLOR_MAP_values_nonempty kv (List.mem_of_find?_eq_some hf)

/-! ## Digit strings and price parsing (scraper/main.py 143–159)

Python's numeric string functions, restricted to the code points the model
covers: ASCII decimal digits, plus the superscript digits `¹ ² ³`, which
`str.isdigit` accepts but `int()` rejects with `ValueError`.  The code
computes `int(float(f"{main}.{sub}") * 10000)` in IEEE binary64; the model
implements that computation exactly in integer arithmetic: the decimal
value is converted to binary64 by correct rounding (to nearest, ties to
even, with gradual underflow and overflow to `+inf` — the semantics of
`strtod` and hence of Python's `float()`), the product with 10000.0 is
rounded to binary64 once more, and the result is truncated toward zero;
`int()` of an infinite value raises `OverflowError`, which (not being a
`ValueError`) escapes to the per-fragment handler.
-/

/-- ASCII decimal digit. -/
def isAsciiDigit (c : Char) : Bool := '0' ≤ c && c ≤ '9'

/-- Characters Python's `str.isdigit` accepts (modelled subset): ASCII
digits plus superscript digits, which `int()` nevertheless rejects. -/
def pyDigitChar (c : Char) : Bool :=
  isAsciiDigit c || c == '¹' || c == '²' || c == '³'

/-- Python's `s.isdigit()` (modelled subset). -/
def pyIsDigit (s : String) : Bool :=
  !s.data.isEmpty && s.data.all pyDigitChar

/-- Whether `int(s)` succeeds (modelled subset: plain ASCII digit strings). -/
def intParsable (s : String) : Bool :=
  !s.data.isEmpty && s.data.all isAsciiDigit

/-- Numeric value of an ASCII digit string. -/
def digitsToNat (s : String) : Nat :=
  s.data.foldl (fun n c => n * 10 + (c.toNat - 48)) 0

/-- Whether `float(f"{m}.{s}")` succeeds (modelled subset: both parts ASCII digit
runs, at least one nonempty — `"48.2"`, `"100.0"`, `"48."`, `".5"`). -/
def floatParsable (m s : String) : Bool :=
  m.data.all isAsciiDigit && s.data.all isAsciiDigit &&
    (!m.data.isEmpty || !s.data.isEmpty)

/-- Python's `s.replace('.', '')` applied to the sub-price text. -/
def stripDots (s : String) : String := ⟨s.data.filter fun c => c ≠ '.'⟩

/-- Fueled floor-log2 (structural recursion, so the kernel can evaluate
it on concrete inputs; fuel `n` always suffices). -/
def log2Fuel : Nat → Nat → Nat
  | 0, _ => 0
  | fuel + 1, n => if 2 ≤ n then log2Fuel fuel (n / 2) + 1 else 0

/-- Floor of `log2 n` for positive `n`. -/
def nlog2 (n : Nat) : Nat := log2Fuel n n

/-- Tests `2 ^ e * den ≤ num` for an integer (possibly negative)
exponent. -/
def dyadicLE (e : Int) (den num : Nat) : Bool :=
  if 0 ≤ e then decide (2 ^ e.toNat * den ≤ num)
  else decide (den ≤ num * 2 ^ (-e).toNat)

/-- Floor of `log2 (num / den)` for positive `num` and `den`: the unique
`e` with `2 ^ e * den ≤ num < 2 ^ (e + 1) * den`. -/
def flog2 (num den : Nat) : Int :=
  let c : Int := (nlog2 num : Int) - (nlog2 den : Int)
  if dyadicLE c den num then c else c - 1

/-- Rounds `num / den` to the nearest integer, ties to even. -/
def rhe (num den : Nat) : Nat :=
  let q := num / den
  let r := num % den
  if 2 * r < den then q
  else if den < 2 * r then q + 1
  else if q % 2 = 0 then q else q + 1

/-- Rounds `(num / den) / 2 ^ f` to the nearest integer, ties to even. -/
def scaleRound (num den : Nat) (f : Int) : Nat :=
  if 0 ≤ f then rhe num (den * 2 ^ f.toNat)
  else rhe (num * 2 ^ (-f).toNat) den

/-- A nonnegative IEEE binary64 value: `+inf`, or the exact dyadic
rational `sig * 2 ^ exp` (zero included as `sig = 0`). -/
structure Binary64 where
  isInf : Bool
  sig : Nat
  exp : Int
deriving DecidableEq

/-- Tests `sig * 2 ^ f ≥ 2 ^ 1024`, the binary64 overflow threshold —
equivalently (the threshold being a power of two, and `nlog2 sig + f` the
floor-log2 of the value) `nlog2 sig + f ≥ 1024` for positive `sig`. -/
def dyadicOverflow (sig : Nat) (f : Int) : Bool :=
  decide (1 ≤ sig) && decide ((1024 : Int) ≤ (nlog2 sig : Int) + f)

/-- Correct rounding of the nonnegative rational `num / den` to binary64:
round to nearest with ties to even, significand scale `2 ^ (e - 52)` for
a normal value with floor-log2 `e`, clamped at `2 ^ (-1074)` for gradual
underflow, and `+inf` past the overflow threshold.  These are the
semantics of `strtod`, hence of Python's `float()` on a decimal string. -/
def roundB64 (num den : Nat) : Binary64 :=
  if num = 0 then ⟨false, 0, 0⟩
  else
    let e := flog2 num den
    let f := max (e - 52) (-1074)
    let s := scaleRound num den f
    if dyadicOverflow s f then ⟨true, 0, 0⟩ else ⟨false, s, f⟩

/-- Python's `float(f"{m}.{s}")` on digit-string spans: the decimal value
`<m>.<s>`, correctly rounded to binary64. -/
def floatOfSpans (m s : String) : Binary64 :=
  roundB64 (digitsToNat m * 10 ^ s.length + digitsToNat s) (10 ^ s.length)

/-- Python's `int(d * 10000)`: the IEEE product of `d` with the exactly
representable 10000.0 (one more round to nearest, ties to even),
truncated toward zero; `none` when the value is infinite, where `int()`
raises `OverflowError`. -/
def b64MulTruncInt (d : Binary64) : Option Nat :=
  if d.isInf then none
  else
    let num := d.sig * 10000
    let d2 :=
      if 0 ≤ d.exp then roundB64 (num * 2 ^ d.exp.toNat) 1
      else roundB64 num (2 ^ (-d.exp).toNat)
    if d2.isInf then none
    else if 0 ≤ d2.exp then some (d2.sig * 2 ^ d2.exp.toNat)
    else some (d2.sig / 2 ^ (-d2.exp).toNat)

/-- The value `int(float(f"{m}.{s}") * 10000)` with full binary64
semantics. -/
def floatPriceValue (m s : String) : Option Nat :=
  b64MulTruncInt (floatOfSpans m s)

/-- Follows the claim's words, not the code: the exact decimal number
`<major>.<minor>`, multiplied by 10,000 and truncated.  A reference
definition kept only for comparison with `floatPriceValue`: the code's
binary64 computation can differ from this exact value by one unit. -/
def specDecimalTimes10000 (m s : String) : Nat :=
  (digitsToNat m * 10 ^ s.length + digitsToNat s) * 10000 / 10 ^ s.length

/-- The modelled Python exceptions of the price code. -/
inductive PyError where
  | valueError
  | overflowError
deriving DecidableEq

/-- The `sub_num` value: the stripped sub-price text with dots removed, `'0'` when
the sub span is absent. -/
def effectiveSub : Option String → String
  | some sb => stripDots sb
  | none => "0"

/-- Price extraction (scraper/main.py 143–159).  `none` for `mainNum`
covers both a missing `totalPrice` block and a missing main span — either
way the default 1500000 stands.  With a main span: try the float route
(binary64 value of the concatenation, times 10000.0, truncated; an
infinite value makes `int()` raise `OverflowError`, which the local
`except ValueError` does not catch); on `ValueError` fall back to
`int(main) * 10000` when `main.isdigit()`, else the default; `int()`
itself raises on digit-test-passing, non-integer-parsable text
(superscript digits). -/
def parsePriceE (mainNum subNum : Option String) : Except PyError Nat :=
  match mainNum with
  | none => .ok 1500000
  | some m =>
    let s := effectiveSub subNum
    if floatParsable m s then
      match floatPriceValue m s with
      | some v => .ok v
      | none => .error .overflowError
    else if pyIsDigit m then
      if intParsable m then .ok (digitsToNat m * 10000) else .error .valueError
    else .ok 1500000

/-! ## Year extraction (scraper/main.py 128–141) -/

/-- Four ASCII digits at the head of the character list. -/
def fourDigitsAt : List Char → Option Nat
  | a :: b :: c :: d :: _ =>
    if isAsciiDigit a && isAsciiDigit b && isAsciiDigit c && isAsciiDigit d then
      some ((((a.toNat - 48) * 10 + (b.toNat - 48)) * 10 + (c.toNat - 48)) * 10
        + (d.toNat - 48))
    else none
  | _ => none

/-- Model of `re.search(r'(\d{4})', s)`: the leftmost run of four digits. -/
def findFourDigits : List Char → Option Nat
  | [] => none
  | c :: rest =>
    match fourDigitsAt (c :: rest) with
    | some n => some n
    | none => findFourDigits rest

/-- One `specList__detailBox`: the `dt.specList__title` text and the
`specList__emphasisData` span text under `dd.specList__data` (absent
levels collapse to `none`). -/
structure SpecBox where
  dtText : Option String
  emphText : Option String
deriving DecidableEq

/-- The year loop: every box whose `dt` text contains `年式` and whose
emphasis span holds a four-digit run overwrites `year` (no break — the
last matching box wins); default 2020. -/
def yearOfBoxes (boxes : List SpecBox) : Nat :=
  boxes.foldl
    (fun y box =>
      match box.dtText with
      | none => y
      | some dt =>
        if containsStr dt "年式" then
          match box.emphText with
          | none => y
          | some t =>
            match findFourDigits t.data with
            | some n => n
            | none => y
        else y)
    2020

/-! ## Brand extraction (scraper/main.py 88–108) -/

/-- The known-brand token set of the `<p>` search lambda. -/
def knownBrands : List String :=
  ["トヨタ", "ホンダ", "日産", "マツダ", "スバル", "スズキ", "三菱", "ダイハツ",
   "レクサス", "Toyota", "Honda", "Nissan", "Mazda", "Subaru", "Suzuki"]

/-- The `brand_map` table: Japanese to English brand normalization. -/
def brand_map : List (String × String) :=
  [("トヨタ", "Toyota"), ("ホンダ", "Honda"), ("日産", "Nissan"),
   ("マツダ", "Mazda"), ("スバル", "Subaru"), ("スズキ", "Suzuki"),
   ("三菱", "Mitsubishi"), ("ダイハツ", "Daihatsu"), ("レクサス", "Lexus")]

/-! ## The fragment model

One `div.cassette`, abstracted to exactly the node texts the extractor
reads: the candidate `<p>` strings the brand search scans, the stripped
text of the first `<p>` in `cassetteMain__carInfoContainer` (if any), the
`h3.cassetteMain__title` tag with its optional `<a>`, the spec boxes, the
two price span texts, and the `carBodyInfoList` item texts.  All texts are
as `get_text(strip=True)` returns them except `pTexts`, whose raw strings
the search lambda strips itself.
-/

/-- The `<a>` inside the title: its `href` attribute (absent ⇒ `None`)
and its stripped text. -/
structure LinkTag where
  href : Option String
  text : String
deriving DecidableEq

/-- The `h3.cassetteMain__title` tag. -/
structure TitleTag where
  linkTag : Option LinkTag
  text : String
deriving DecidableEq

/-- One listing fragment. -/
structure Fragment where
  pTexts : List String
  infoPText : Option String
  title : Option TitleTag
  specBoxes : List SpecBox
  mainPriceText : Option String
  subPriceText : Option String
  bodyInfoTexts : List String
deriving DecidableEq

/-- One extracted listing, as the dict built at scraper/main.py 174–181. -/
structure CarData where
  brand : String
  model : String
  year : Nat
  price : Nat
  color : String
  link : String
deriving DecidableEq

/-- What one loop body does with a fragment: raise (caught and logged by
the per-fragment `except`), skip silently (`continue` on a missing title
or link), or extract a listing. -/
inductive ExtractOutcome where
  | raised
  | skipped
  | extracted (c : CarData)
deriving DecidableEq

def BASE_URL : String := "https://www.carsensor.net"

/-- Model of `urljoin(BASE_URL, href)` restricted to the href shapes the site
emits: absolute URLs pass through, absolute paths append to the base. -/
def resolveLink (base href : String) : String :=
  if prefixAt "http".data href.data then href else base ++ href

/-- Brand extraction: first `<p>` string whose stripped text is a known
brand token; else the first `<p>` of the info container; else `'Honda'`;
then `brand_map` normalization with pass-through. -/
def extractBrand (frag : Fragment) : String :=
  let tagText : Option String :=
    match frag.pTexts.find? (fun t => knownBrands.contains t.trim) with
    | some t => some t.trim
    | none => frag.infoPText
  let brand := tagText.getD "Honda"
  match brand_map.find? (fun kv => kv.1 == brand) with
  | some kv => kv.2
  | none => brand

/-- The expression `model_text.split()[0] if model_text else 'Unknown'`: first
whitespace-delimited word; empty text falls back to `'Unknown'`;
`split()[0]` of nonempty all-whitespace text raises `IndexError`
(unreachable for stripped texts, kept as the faithful translation). -/
def extractModel (modelText : String) : Except PyError String :=
  if modelText.data.isEmpty then .ok "Unknown"
  else
    let rest := modelText.data.dropWhile fun c => c.isWhitespace
    if rest.isEmpty then .error .valueError
    else .ok ⟨rest.takeWhile fun c => !c.isWhitespace⟩

/-- One iteration of the cassette loop (scraper/main.py 86–188). -/
def extractFragment (frag : Fragment) : ExtractOutcome :=
  let brand := extractBrand frag
  match frag.title with
  | none => .skipped
  | some title =>
    let modelText :=
      match title.linkTag with
      | some l => l.text
      | none => title.text
    match extractModel modelText with
    | .error _ => .raised
    | .ok model =>
      match title.linkTag.bind LinkTag.href with
      | none => .skipped
      | some href =>
        if href = "" then .skipped
        else
          let link := resolveLink BASE_URL href
          let year := yearOfBoxes frag.specBoxes
          match parsePriceE frag.mainPriceText frag.subPriceText with
          | .error _ => .raised
          | .ok price =>
            let color := extractColor frag.bodyInfoTexts
            .extracted ⟨brand, model, year, price, color, link⟩

/-- The whole-page extraction: every fragment's outcome, raising and
skipping fragments dropped, extraction order preserved. -/
def extractPage (frags : List Fragment) : List CarData :=
  frags.filterMap fun f =>
    match extractFragment f with
    | .extracted c => some c
    | _ => none

/-! ## The store (backend/models.py 18–28, scraper/main.py 201–238)

The `cars` table: rows with a serial surrogate `id` and a unique index on
`link`.  `save_cars` runs one `INSERT ... ON CONFLICT (link) DO UPDATE SET
price, color` for the whole batch inside one session: PostgreSQL inserts
each batch row, and a row whose `link` already exists updates only `price`
and `color` of the existing row.  Two batch rows with the same `link`
abort the statement (`ON CONFLICT DO UPDATE cannot affect row a second
time`, a cardinality violation).  The session wrapper mirrors the
`try / except / finally` at scraper/main.py 214–238: commit on success,
rollback and re-raise on any error, close on every path.
-/

/-- One persisted row of the `cars` table. -/
structure Car where
  id : Nat
  brand : String
  model : String
  year : Nat
  price : Nat
  color : String
  link : String
deriving DecidableEq

/-- The table plus its serial-id counter. -/
structure Store where
  rows : List Car
  nextId : Nat
deriving DecidableEq

/-- A batch entry inserted as a fresh row. -/
def CarData.toRow (c : CarData) (id : Nat) : Car :=
  ⟨id, c.brand, c.model, c.year, c.price, c.color, c.link⟩

/-- One batch row of the upsert: on a `link` conflict update `price` and
`color` of the conflicting row, otherwise insert with a fresh id. -/
def upsertRow (st : Store) (c : CarData) : Store :=
  if st.rows.any fun r => r.link == c.link then
    ⟨st.rows.map fun r =>
        if r.link == c.link then { r with price := c.price, color := c.color } else r,
      st.nextId⟩
  else
    ⟨st.rows ++ [c.toRow st.nextId], st.nextId + 1⟩

/-- Two batch entries share a `link`. -/
def hasDupLinks : List CarData → Bool
  | [] => false
  | c :: rest => (rest.any fun c' => c'.link == c.link) || hasDupLinks rest

/-- Database-level errors of the batch statement: the cardinality
violation PostgreSQL raises when one `ON CONFLICT DO UPDATE` command would
touch the same row twice, and any injected environment failure
(connection loss, disk, …) during execute/commit. -/
inductive DBErr where
  | cardinalityViolation
  | dbFailure (msg : String)
deriving DecidableEq

/-- The batch statement itself: all-or-nothing. -/
def execUpsert (st : Store) (batch : List CarData) : Except DBErr Store :=
  if hasDupLinks batch then .error .cardinalityViolation
  else .ok (batch.foldl upsertRow st)

/-- What happened to the session during one `save_cars` call. -/
structure SessionLog where
  opened : Bool
  committed : Bool
  rolledBack : Bool
  closed : Bool
deriving DecidableEq

/-- Observable outcome of one `save_cars` call: the durable store after
the call, the exception propagated to the caller (if any), and the
session trace. -/
structure SaveResult where
  store : Store
  err : Option DBErr
  log : SessionLog
deriving DecidableEq

/-- The `save_cars` coroutine (scraper/main.py 201–238).  An empty batch returns before
any session is opened.  Otherwise: execute + commit inside `try`; the
`inject` argument models an environment failure raised there; any raised
error is rolled back (the durable store stays as it was) and re-raised;
`finally` closes the session on every path. -/
def save_cars (st : Store) (batch : List CarData) (inject : Option String) :
    SaveResult :=
  if batch.isEmpty then
    ⟨st, none, ⟨false, false, false, false⟩⟩
  else
    match inject with
    | some msg => ⟨st, some (.dbFailure msg), ⟨true, false, true, true⟩⟩
    | none =>
      match execUpsert st batch with
      | .error e => ⟨st, some e, ⟨true, false, true, true⟩⟩
      | .ok st' => ⟨st', none, ⟨true, true, false, true⟩⟩

/-! ### Row tracking through the upsert fold -/

/-- The per-existing-row effect of one batch entry: a matching `link`
overwrites `price` and `color`, anything else leaves the row alone. -/
def updRow (row : Car) (c : CarData) : Car :=
  if row.link == c.link then { row with price := c.price, color := c.color } else row

/-- The per-existing-row effect of the whole batch. -/
def applyBatch (row : Car) (batch : List CarData) : Car :=
  batch.foldl updRow row

theorem updRow_id (row : Car) (c : CarData) : (updRow row c).id = row.id := by
  unfold updRow; split <;> rfl

theorem updRow_brand (row : Car) (c : CarData) : (updRow row c).brand = row.brand := by
  unfold updRow; split <;> rfl

theorem updRow_model (row : Car) (c : CarData) : (updRow row c).model = row.model := by
  unfold updRow; split <;> rfl

theorem updRow_year (row : Car) (c : CarData) : (updRow row c).year = row.year := by
  unfold updRow; split <;> rfl

theorem updRow_link (row : Car) (c : CarData) : (updRow row c).link = row.link := by
  unfold updRow; split <;> rfl

theorem applyBatch_id (row : Car) (batch : List CarData) :
    (applyBatch row batch).id = row.id := by
  induction batch generalizing row with
  | nil => rfl
  | cons c rest ih => rw [applyBatch, List.foldl_cons, ← applyBatch, ih, updRow_id]

theorem applyBatch_brand (row : Car) (batch : List CarData) :
    (applyBatch row batch).brand = row.brand := by
  induction batch generalizing row with
  | nil => rfl
  | cons c rest ih => rw [applyBatch, List.foldl_cons, ← applyBatch, ih, updRow_brand]

theorem applyBatch_model (row : Car) (batch : List CarData) :
    (applyBatch row batch).model = row.model := by
  induction batch generalizing row with
  | nil => rfl
  | cons c rest ih => rw [applyBatch, List.foldl_cons, ← applyBatch, ih, updRow_model]

theorem applyBatch_year (row : Car) (batch : List CarData) :
    (applyBatch row batch).year = row.year := by
  induction batch generalizing row with
  | nil => rfl
  | cons c rest ih => rw [applyBatch, List.foldl_cons, ← applyBatch, ih, updRow_year]

theorem applyBatch_link (row : Car) (batch : List CarData) :
    (applyBatch row batch).link = row.link := by
  induction batch generalizing row with
  | nil => rfl
  | cons c rest ih => rw [applyBatch, List.foldl_cons, ← applyBatch, ih, updRow_link]

/-- One upsert step carries every existing row to its `updRow` image. -/
theorem mem_upsertRow {row : Car} {st : Store} (c : CarData)
    (h : row ∈ st.rows) : updRow row c ∈ (upsertRow st c).rows := by
  unfold upsertRow
  split
  · exact List.mem_map.2 ⟨row, h, by rw [updRow]⟩
  · rename_i hany
    have hne : (row.link == c.link) = false := by
      rcases hb : row.link == c.link with _ | _
      · rfl
      · exact absurd (List.any_eq_true.2 ⟨row, h, hb⟩) hany
    rw [updRow, hne]
    simp [List.mem_append, h]

/-- The whole fold carries every existing row to its `applyBatch` image. -/
theorem mem_foldl_upsert {row : Car} {st : Store} (batch : List CarData)
    (h : row ∈ st.rows) :
    applyBatch row batch ∈ (batch.foldl upsertRow st).rows := by
  induction batch generalizing st row with
  | nil => exact h
  | cons c rest ih =>
    rw [applyBatch, List.foldl_cons, List.foldl_cons, ← applyBatch]
    exact ih (mem_upsertRow c h)

/-- Once the batch holds no entry for the row's `link`, the fold leaves
the row untouched. -/
theorem applyBatch_of_no_match {row : Car} {batch : List CarData}
    (h : ∀ c ∈ batch, (row.link == c.link) = false) :
    applyBatch row batch = row := by
  induction batch with
  | nil => rfl
  | cons c rest ih =>
    rw [applyBatch, List.foldl_cons, ← applyBatch, updRow,
      h c (List.mem_cons_self c rest)]
    exact ih fun c' hc' => h c' (List.mem_cons_of_mem c hc')

/-- With batch links pairwise distinct, the fold's effect on an existing
row is decided by the (unique) batch entry found for its link. -/
theorem applyBatch_eq_find {row : Car} {batch : List CarData}
    (hnd : hasDupLinks batch = false) :
    applyBatch row batch =
      match batch.find? (fun c => row.link == c.link) with
      | some c => { row with price := c.price, color := c.color }
      | none => row := by
  induction batch with
  | nil => rfl
  | cons c rest ih =>
    rw [hasDupLinks, Bool.or_eq_false_iff] at hnd
    have hnotany : ∀ c' ∈ rest, ¬c'.link = c.link := by simpa using hnd.1
    rw [applyBatch, List.foldl_cons, ← applyBatch, updRow]
    rcases hb : row.link == c.link with _ | _
    · simp only [List.find?_cons, hb]
      exact ih hnd.2
    · have hlink : row.link = c.link := by simpa using hb
      simp only [List.find?_cons, hb]
      refine applyBatch_of_no_match fun c' hc' => ?_
      show (row.link == c'.link) = false
      rw [hlink]
      exact beq_eq_false_iff_ne.2 fun he => hnotany c' hc' he.symm

/-- Whether `link` occurs in the store. -/
def linkIn (st : Store) (l : String) : Bool :=
  st.rows.any fun r => r.link == l

theorem linkIn_upsertRow {st : Store} {l : String} (c : CarData)
    (h : linkIn st l = true) : linkIn (upsertRow st c) l = true := by
  unfold linkIn upsertRow at *
  rcases List.any_eq_true.1 h with ⟨r, hr, hb⟩
  split
  · exact List.any_eq_true.2 ⟨_, List.mem_map_of_mem _ hr, by split <;> exact hb⟩
  · exact List.any_eq_true.2 ⟨r, by simp [hr], hb⟩

theorem linkIn_upsertRow_self (st : Store) (c : CarData) :
    linkIn (upsertRow st c) c.link = true := by
  unfold linkIn upsertRow
  split
  · rename_i hany
    rcases List.any_eq_true.1 hany with ⟨r, hr, hb⟩
    exact List.any_eq_true.2 ⟨_, List.mem_map_of_mem _ hr, by split <;> exact hb⟩
  · exact List.any_eq_true.2 ⟨c.toRow st.nextId, by simp, by simp [CarData.toRow]⟩

theorem linkIn_foldl (batch : List CarData) {st : Store} {l : String}
    (h : linkIn st l = true) : linkIn (batch.foldl upsertRow st) l = true := by
  induction batch generalizing st with
  | nil => exact h
  | cons d rest ih => exact ih (linkIn_upsertRow d h)

/-- After the fold, every batch entry's link is present. -/
theorem linkIn_foldl_of_mem {batch : List CarData} {c : CarData} (st : Store)
    (hc : c ∈ batch) : linkIn (batch.foldl upsertRow st) c.link = true := by
  induction batch generalizing st with
  | nil => cases hc
  | cons d rest ih =>
    rw [List.foldl_cons]
    cases hc with
    | head => exact linkIn_foldl rest (linkIn_upsertRow_self st c)
    | tail _ hc' => exact ih _ hc'

theorem length_upsertRow_of_linkIn {st : Store} {c : CarData}
    (h : linkIn st c.link = true) :
    (upsertRow st c).rows.length = st.rows.length := by
  unfold linkIn at h
  unfold upsertRow
  rw [if_pos h]
  exact List.length_map _ _

/-- A batch whose links all conflict only updates: the row count is
unchanged. -/
theorem length_foldl_upsert_of_linkIn {batch : List CarData} {st : Store}
    (h : ∀ c ∈ batch, linkIn st c.link = true) :
    (batch.foldl upsertRow st).rows.length = st.rows.length := by
  induction batch generalizing st with
  | nil => rfl
  | cons d rest ih =>
    rw [List.foldl_cons,
      ih fun c hc => linkIn_upsertRow d (h c (List.mem_cons_of_mem d hc))]
    exact length_upsertRow_of_linkIn (h d (List.mem_cons_self d rest))

/-- A `save_cars` call (no injected failure) that reports no error had
duplicate-free links and committed exactly the batch fold. -/
theorem save_cars_none_ok {st : Store} {batch : List CarData}
    (hok : (save_cars st batch none).err = none) :
    hasDupLinks batch = false ∧
    (save_cars st batch none).store = batch.foldl upsertRow st := by
  rcases hb : batch.isEmpty with _ | _
  · cases hexec : execUpsert st batch with
    | error e =>
      rw [save_cars, hb] at hok
      simp [hexec] at hok
    | ok st' =>
      have hnd : hasDupLinks batch = false := by
        rcases hd : hasDupLinks batch with _ | _
        · rfl
        · rw [execUpsert, hd] at hexec; simp at hexec
      have hfold : batch.foldl upsertRow st = st' := by
        rw [execUpsert, hnd] at hexec; simpa using hexec
      rw [save_cars, hb]
      simp [hexec, hfold]
      exact hnd
  · have hnil : batch = [] := by
      cases batch with
      | nil => rfl
      | cons a l => simp [List.isEmpty] at hb
    subst hnil
    exact ⟨rfl, rfl⟩

/-- Demonstration data for the witnesses. -/
def demoRow : Car :=
  ⟨1, "Toyota", "Prius", 2019, 1200000, "White", "https://www.carsensor.net/usedcar/a.html"⟩

def demoRow2 : Car :=
  ⟨2, "Honda", "Fit", 2018, 900000, "Blue", "https://www.carsensor.net/usedcar/b.html"⟩

def demoStore : Store := ⟨[demoRow, demoRow2], 3⟩

/-- A re-scrape of `demoRow`'s listing: same link, new price and colour,
different brand/model/year fields in the batch entry. -/
def demoUpdate : CarData :=
  ⟨"Nissan", "Note", 2021, 482000, "Red", "https://www.carsensor.net/usedcar/a.html"⟩

def demoBatch : List CarData := [demoUpdate]

/-- C1. For every batch passed to `save_cars`, a row whose `link`
already exists in the store has only its `price` and `color` fields
updated (to the conflicting batch entry's values), while its `brand`,
`model`, `year` and `id` keep the values they had before the upsert; a
row whose link no batch entry carries is untouched entirely. -/
theorem save_cars_existing_row_frame
    (st : Store) (batch : List CarData) (row : Car)
    (hrow : row ∈ st.rows)
    (hok : (save_cars st batch none).err = none) :
    ∃ row' ∈ (save_cars st batch none).store.rows,
      row'.id = row.id ∧ row'.brand = row.brand ∧ row'.model = row.model ∧
      row'.year = row.year ∧ row'.link = row.link ∧
      (batch.find? (fun c => row.link == c.link) = none → row' = row) ∧
      (∀ c, batch.find? (fun c => row.link == c.link) = some c →
        row'.price = c.price ∧ row'.color = c.color) := by
  obtain ⟨hnd, hstore⟩ := save_cars_none_ok hok
  refine ⟨applyBatch row batch, ?_, applyBatch_id row batch,
    applyBatch_brand row batch, applyBatch_model row batch,
    applyBatch_year row batch, applyBatch_link row batch, ?_, ?_⟩
  · rw [hstore]
    exact mem_foldl_upsert batch hrow
  · intro hnone
    rw [applyBatch_eq_find hnd, hnone]
  · intro c hc
    rw [applyBatch_eq_find hnd, hc]
    exact ⟨rfl, rfl⟩

/-- Witness for C1 at concrete data: `demoRow` exists in `demoStore` and
the batch `demoBatch` hits its link. -/
theorem save_cars_existing_row_frame_witness :
    demoRow ∈ demoStore.rows ∧
    (save_cars demoStore demoBatch none).err = none ∧
    ∃ row' ∈ (save_cars demoStore demoBatch none).store.rows,
      row'.id = demoRow.id ∧ row'.brand = demoRow.brand ∧
      row'.model = demoRow.model ∧ row'.year = demoRow.year ∧
      row'.link = demoRow.link ∧
      (demoBatch.find? (fun c => demoRow.link == c.link) = none → row' = demoRow) ∧
      (∀ c, demoBatch.find? (fun c => demoRow.link == c.link) = some c →
        row'.price = c.price ∧ row'.color = c.color) :=
  ⟨by decide, by decide,
    save_cars_existing_row_frame demoStore demoBatch demoRow (by decide) (by decide)⟩

/-- C4. Upserting the same batch a second time is idempotent: the
second call succeeds, the row count is unchanged (every batch link now
conflicts, so no row is inserted), and `brand`/`model`/`year` (and `id`)
of every row present after the first call are unchanged by the second. -/
theorem save_cars_idempotent (st : Store) (batch : List CarData)
    (hok : (save_cars st batch none).err = none) :
    (save_cars (save_cars st batch none).store batch none).err = none ∧
    (save_cars (save_cars st batch none).store batch none).store.rows.length
      = (save_cars st batch none).store.rows.length ∧
    ∀ row ∈ (save_cars st batch none).store.rows,
      ∃ row' ∈ (save_cars (save_cars st batch none).store batch none).store.rows,
        row'.id = row.id ∧ row'.brand = row.brand ∧
        row'.model = row.model ∧ row'.year = row.year := by
  obtain ⟨hnd, hstore⟩ := save_cars_none_ok hok
  have hsecond :
      (save_cars (save_cars st batch none).store batch none).err = none := by
    rcases hb : batch.isEmpty with _ | _
    · simp [save_cars, hb, execUpsert, hnd]
    · simp [save_cars, hb]
  obtain ⟨_, hstore₂⟩ := save_cars_none_ok hsecond
  refine ⟨hsecond, ?_, ?_⟩
  · rw [hstore₂]
    refine length_foldl_upsert_of_linkIn fun c hc => ?_
    rw [hstore]
    exact linkIn_foldl_of_mem st hc
  · intro row hrow
    refine ⟨applyBatch row batch, ?_, applyBatch_id row batch,
      applyBatch_brand row batch, applyBatch_model row batch,
      applyBatch_year row batch⟩
    rw [hstore₂]
    exact mem_foldl_upsert batch hrow

/-- Witness for C4 at concrete data. -/
theorem save_cars_idempotent_witness :
    (save_cars demoStore demoBatch none).err = none ∧
    ((save_cars (save_cars demoStore demoBatch none).store demoBatch none).err = none ∧
     (save_cars (save_cars demoStore demoBatch none).store demoBatch none).store.rows.length
       = (save_cars demoStore demoBatch none).store.rows.length ∧
     ∀ row ∈ (save_cars demoStore demoBatch none).store.rows,
       ∃ row' ∈ (save_cars (save_cars demoStore demoBatch none).store demoBatch none).store.rows,
         row'.id = row.id ∧ row'.brand = row.brand ∧
         row'.model = row.model ∧ row'.year = row.year) :=
  ⟨by decide, save_cars_idempotent demoStore demoBatch (by decide)⟩

/-- C5. The batch upsert is atomic: whenever `save_cars` propagates a
database-level error (other than the identity conflict, which `ON
CONFLICT` resolves without erroring), the durable store is exactly the
pre-call store and the transaction was rolled back; the session, once
opened, is closed on every exit path; the durable store is never anything
but the pre-call store or the full batch result (no partial commit); and
an injected environment failure on a nonempty batch propagates to the
caller. -/
theorem save_cars_atomic (st : Store) (batch : List CarData)
    (inject : Option String) :
    ((save_cars st batch inject).err.isSome = true →
        (save_cars st batch inject).store = st ∧
        (save_cars st batch inject).log.rolledBack = true) ∧
    ((save_cars st batch inject).log.opened = true →
        (save_cars st batch inject).log.closed = true) ∧
    ((save_cars st batch inject).store = st ∨
        execUpsert st batch = .ok (save_cars st batch inject).store) ∧
    (∀ msg, inject = some msg → batch.isEmpty = false →
        (save_cars st batch inject).err = some (.dbFailure msg)) := by
  rcases hb : batch.isEmpty with _ | _
  · cases inject with
    | some msg => simp [save_cars, hb]
    | none =>
      cases hexec : execUpsert st batch with
      | error e => simp [save_cars, hb, hexec]
      | ok st' => simp [save_cars, hb, hexec]
  · simp [save_cars, hb]

/-- Witness for C5: an injected failure on a nonempty batch leaves the
store untouched, closes the session, and propagates the error. -/
theorem save_cars_atomic_witness :
    (save_cars demoStore demoBatch (some "connection lost")).store = demoStore ∧
    (save_cars demoStore demoBatch (some "connection lost")).log.closed = true ∧
    (save_cars demoStore demoBatch (some "connection lost")).err
      = some (.dbFailure "connection lost") :=
  ⟨((save_cars_atomic demoStore demoBatch (some "connection lost")).1 (by decide)).1,
   (save_cars_atomic demoStore demoBatch (some "connection lost")).2.1 (by decide),
   (save_cars_atomic demoStore demoBatch (some "connection lost")).2.2.2
     "connection lost" rfl (by decide)⟩

/-! ## The read API (backend/main.py 74–140)

`GET /api/cars`: optional `search` term filtered with
`brand ILIKE '%s%' OR model ILIKE '%s%' OR color ILIKE '%s%'` (Python's
`if search:` skips the clause for `None` and for the empty string),
`ORDER BY id DESC`, keyset clause `id < cursor` when given, `LIMIT limit`;
`total` recounts the search filter without the cursor; `next_cursor` is
`cars[-1].id` when `len(cars) == limit` — indexing that raises
`IndexError` when the full-by-length page is empty (`limit = 0`), which
the model renders as `none`.
-/

/-- The JSON shape of the response. -/
structure CarsListResponse where
  items : List Car
  next_cursor : Option Nat
  total : Nat
deriving DecidableEq

/-- The search `WHERE` clause on one row. -/
def ilikeAny (t : String) (c : Car) : Bool :=
  containsCI c.brand t || containsCI c.model t || containsCI c.color t

/-- The `ORDER BY Car.id DESC` relation. -/
def idDesc : Car → Car → Prop := fun a b => b.id ≤ a.id

instance : DecidableRel idDesc := fun a b =>
  inferInstanceAs (Decidable (b.id ≤ a.id))

instance : IsTotal Car idDesc := ⟨fun a b => Nat.le_total b.id a.id⟩

instance : IsTrans Car idDesc := ⟨fun _ _ _ hab hbc => Nat.le_trans hbc hab⟩

/-- The rows surviving the (optional, falsy-skipped) search filter. -/
def searchFiltered (st : Store) (search : Option String) : List Car :=
  match search with
  | some t => if t ≠ "" then st.rows.filter (ilikeAny t) else st.rows
  | none => st.rows

/-- The page the SQL query returns: search filter, cursor clause, id-desc
order, limit. -/
def pageRows (st : Store) (cursor : Option Nat) (limit : Nat)
    (search : Option String) : List Car :=
  ((match cursor with
    | some cr => (searchFiltered st search).filter fun (c : Car) => decide (c.id < cr)
    | none => searchFiltered st search).insertionSort idDesc).take limit

/-- The `get_cars` endpoint (backend/main.py 74–140). -/
def get_cars (st : Store) (cursor : Option Nat) (limit : Nat)
    (search : Option String) : Option CarsListResponse :=
  let cars := pageRows st cursor limit search
  let total := (searchFiltered st search).length
  if cars.length = limit then
    match cars.getLast? with
    | some last => some ⟨cars, some last.id, total⟩
    | none => none
  else some ⟨cars, none, total⟩

/-- The claim's term predicate: case-insensitive substring over brand,
model, or colour; an absent term matches every row. -/
def matchesTerm (term : Option String) (c : Car) : Bool :=
  match term with
  | none => true
  | some t => ilikeAny t c

theorem ilikeAny_empty (c : Car) : ilikeAny "" c = true := by
  simp [ilikeAny, containsCI_empty]

theorem filter_ilike_empty (rows : List Car) :
    rows.filter (ilikeAny "") = rows :=
  List.filter_eq_self.2 fun a _ => ilikeAny_empty a

/-- The falsy-skipped SQL filter keeps exactly the rows the claim's term
predicate accepts (the empty term matches everything). -/
theorem searchFiltered_eq (st : Store) (term : Option String) :
    searchFiltered st term = st.rows.filter (matchesTerm term) := by
  cases term with
  | none => exact (List.filter_true st.rows).symm
  | some t =>
    by_cases ht : t = ""
    · subst ht
      have hred : searchFiltered st (some "") = st.rows := by
        simp [searchFiltered]
      rw [hred]
      exact (filter_ilike_empty st.rows).symm
    · simp only [searchFiltered, if_pos ht]
      rfl

theorem pageRows_sorted (st : Store) (cursor : Option Nat) (limit : Nat)
    (term : Option String) :
    (pageRows st cursor limit term).Pairwise idDesc :=
  (List.sorted_insertionSort idDesc _).sublist (List.take_sublist _ _)

theorem pageRows_cursor {st : Store} {cr limit : Nat} {term : Option String}
    {c : Car} (hmem : c ∈ pageRows st (some cr) limit term) : c.id < cr := by
  simp only [pageRows] at hmem
  have h1 := (List.mem_insertionSort idDesc).1 (List.mem_of_mem_take hmem)
  simpa using List.of_mem_filter h1

theorem pageRows_length_le (st : Store) (cursor : Option Nat) (limit : Nat)
    (term : Option String) : (pageRows st cursor limit term).length ≤ limit :=
  List.length_take_le _ _

/-- C2 counterexample. The claim quantifies over every call, but a
call with `limit = 0` makes `len(cars) == limit` hold with an empty page,
and `cars[-1]` then raises `IndexError`: the endpoint returns no response
at all, in particular none with `next_cursor = None` as the claim
requires. -/
theorem get_cars_limit_zero_crashes :
    get_cars demoStore none 0 none = none ∧
    ¬∃ r : CarsListResponse, get_cars demoStore none 0 none = some r ∧
      r.next_cursor = none := by
  have h : get_cars demoStore none 0 none = none := by decide
  exact ⟨h, fun ⟨r, hr, _⟩ => by rw [h] at hr; exact Option.noConfusion hr⟩

/-- C2 (amended: for `limit ≥ 1`). The read query returns a response:
its items are ordered by `id` descending; with a cursor every item has
`id < cursor`; at most `limit` items are returned; `next_cursor` is the
last returned item's `id` exactly when the page is full and `None`
otherwise; and `total` counts the rows matching the term predicate
(case-insensitive substring over brand, model, colour) ignoring the
cursor.  (`limit = 0` instead raises `IndexError`, see the
counterexample.) -/
theorem get_cars_pagination (st : Store) (cursor : Option Nat) (limit : Nat)
    (term : Option String) (hlim : 1 ≤ limit) :
    ∃ r, get_cars st cursor limit term = some r ∧
      r.items.Pairwise (fun a b => b.id ≤ a.id) ∧
      (∀ cr, cursor = some cr → ∀ c ∈ r.items, c.id < cr) ∧
      r.items.length ≤ limit ∧
      (r.items.length = limit →
        ∃ last, r.items.getLast? = some last ∧ r.next_cursor = some last.id) ∧
      (r.items.length ≠ limit → r.next_cursor = none) ∧
      r.total = (st.rows.filter (matchesTerm term)).length := by
  have htotal : (searchFiltered st term).length
      = (st.rows.filter (matchesTerm term)).length := by
    rw [searchFiltered_eq]
  by_cases hlen : (pageRows st cursor limit term).length = limit
  · have hne : pageRows st cursor limit term ≠ [] := by
      intro h0
      rw [h0] at hlen
      simp at hlen
      omega
    obtain ⟨last, hlast⟩ :=
      Option.isSome_iff_exists.1 (List.getLast?_isSome.2 hne)
    refine ⟨⟨pageRows st cursor limit term, some last.id,
      (searchFiltered st term).length⟩, ?_, pageRows_sorted st cursor limit term,
      ?_, pageRows_length_le st cursor limit term, ?_, ?_, htotal⟩
    · simp [get_cars, hlen, hlast]
    · intro cr hcr c hc
      subst hcr
      exact pageRows_cursor hc
    · intro _
      exact ⟨last, hlast, rfl⟩
    · intro hne'
      exact absurd hlen hne'
  · refine ⟨⟨pageRows st cursor limit term, none,
      (searchFiltered st term).length⟩, ?_, pageRows_sorted st cursor limit term,
      ?_, pageRows_length_le st cursor limit term, ?_, fun _ => rfl, htotal⟩
    · simp [get_cars, hlen]
    · intro cr hcr c hc
      subst hcr
      exact pageRows_cursor hc
    · intro h
      exact absurd h hlen

/-- Witness for C2 (amended) at a concrete call: `limit = 1` over the
two-row demo store gives a full page. -/
theorem get_cars_pagination_witness :
    1 ≤ 1 ∧
    ∃ r, get_cars demoStore none 1 none = some r ∧
      r.items.Pairwise (fun a b => b.id ≤ a.id) ∧
      (∀ cr, (none : Option Nat) = some cr → ∀ c ∈ r.items, c.id < cr) ∧
      r.items.length ≤ 1 ∧
      (r.items.length = 1 →
        ∃ last, r.items.getLast? = some last ∧ r.next_cursor = some last.id) ∧
      (r.items.length ≠ 1 → r.next_cursor = none) ∧
      r.total = (demoStore.rows.filter (matchesTerm none)).length :=
  ⟨le_refl 1, get_cars_pagination demoStore none 1 none (le_refl 1)⟩

/-! ## The bot's database search (bot/main.py 97–143)

`search_cars_in_db` consumes the `{brand?, color?, max_price?}` filter
object: each predicate is added only when the key is present **and
truthy** (`if "brand" in filters and filters["brand"]`), so an empty
string or a zero price adds no clause; `ORDER BY price ASC LIMIT 5`.
-/

/-- The filter object produced by the bot collaborator. -/
structure BotFilters where
  brand : Option String
  color : Option String
  max_price : Option Int
deriving DecidableEq

/-- The `ORDER BY Car.price ASC` relation. -/
def priceAsc : Car → Car → Prop := fun a b => a.price ≤ b.price

instance : DecidableRel priceAsc := fun a b =>
  inferInstanceAs (Decidable (a.price ≤ b.price))

instance : IsTotal Car priceAsc := ⟨fun a b => Nat.le_total a.price b.price⟩

instance : IsTrans Car priceAsc := ⟨fun _ _ _ => Nat.le_trans⟩

/-- The clause `if "brand" in filters and filters["brand"]: ... ilike ...`. -/
def applyBrandFilter (rows : List Car) : Option String → List Car
  | some b => if b ≠ "" then rows.filter fun c => containsCI c.brand b else rows
  | none => rows

/-- The clause `if "color" in filters and filters["color"]: ... ilike ...`. -/
def applyColorFilter (rows : List Car) : Option String → List Car
  | some col => if col ≠ "" then rows.filter fun c => containsCI c.color col else rows
  | none => rows

/-- The clause `if "max_price" in filters and filters["max_price"]: price <= m`. -/
def applyPriceFilter (rows : List Car) : Option Int → List Car
  | some m => if m ≠ 0 then rows.filter fun c => decide ((c.price : Int) ≤ m) else rows
  | none => rows

/-- The `search_cars_in_db` function (bot/main.py 97–143). -/
def search_cars_in_db (st : Store) (f : BotFilters) : List Car :=
  ((applyPriceFilter
      (applyColorFilter (applyBrandFilter st.rows f.brand) f.color)
      f.max_price).insertionSort priceAsc).take 5

theorem mem_applyBrandFilter {rows : List Car} {ob : Option String} {c : Car}
    (h : c ∈ applyBrandFilter rows ob) : c ∈ rows := by
  cases ob with
  | none => exact h
  | some b =>
    simp only [applyBrandFilter] at h
    split at h
    · exact List.mem_of_mem_filter h
    · exact h

theorem mem_applyColorFilter {rows : List Car} {ob : Option String} {c : Car}
    (h : c ∈ applyColorFilter rows ob) : c ∈ rows := by
  cases ob with
  | none => exact h
  | some b =>
    simp only [applyColorFilter] at h
    split at h
    · exact List.mem_of_mem_filter h
    · exact h

theorem mem_applyPriceFilter {rows : List Car} {om : Option Int} {c : Car}
    (h : c ∈ applyPriceFilter rows om) : c ∈ rows := by
  cases om with
  | none => exact h
  | some m =>
    simp only [applyPriceFilter] at h
    split at h
    · exact List.mem_of_mem_filter h
    · exact h

theorem applyBrandFilter_contains {rows : List Car} {b : String} {c : Car}
    (hb : b ≠ "") (h : c ∈ applyBrandFilter rows (some b)) :
    containsCI c.brand b = true := by
  simp only [applyBrandFilter, if_pos hb] at h
  simpa using List.of_mem_filter h

theorem applyColorFilter_contains {rows : List Car} {col : String} {c : Car}
    (hcol : col ≠ "") (h : c ∈ applyColorFilter rows (some col)) :
    containsCI c.color col = true := by
  simp only [applyColorFilter, if_pos hcol] at h
  simpa using List.of_mem_filter h

theorem applyPriceFilter_le {rows : List Car} {v : Int} {c : Car}
    (hv : v ≠ 0) (h : c ∈ applyPriceFilter rows (some v)) :
    (c.price : Int) ≤ v := by
  simp only [applyPriceFilter, if_pos hv] at h
  simpa using List.of_mem_filter h

theorem mem_search_chain {st : Store} {f : BotFilters} {c : Car}
    (h : c ∈ search_cars_in_db st f) :
    c ∈ applyPriceFilter
        (applyColorFilter (applyBrandFilter st.rows f.brand) f.color)
        f.max_price :=
  (List.mem_insertionSort priceAsc).1 (List.mem_of_mem_take h)

/-- The concrete store and filter object for the C9 counterexample: one
car priced 1,200,000 and a present-but-zero `max_price`. -/
def cexStore : Store := ⟨[demoRow], 2⟩

def cexFilters : BotFilters := ⟨none, none, some 0⟩

/-- C9 counterexample. With `max_price` present but `0`, the code adds
no price predicate (`0` is falsy), so the result may contain rows whose
price exceeds the filter — here the 1,200,000-yen demo row under
`max_price = 0` — refuting the claim that a present `max_price` restricts
results to `price ≤ max_price`. -/
theorem bot_filter_claim_false :
    cexFilters.max_price = some 0 ∧
    ¬∀ c ∈ search_cars_in_db cexStore cexFilters, (c.price : Int) ≤ 0 := by
  constructor
  · rfl
  · intro h
    have := h demoRow (by decide)
    simp [demoRow] at this

/-- C9 (amended: each predicate applied only when the corresponding
field is present and truthy). Every returned row satisfies the brand
substring filter when a nonempty brand is given, the colour substring
filter when a nonempty colour is given, and the price bound when a
nonzero `max_price` is given; the result is ordered by ascending price
and holds at most 5 rows. -/
theorem bot_search_filters (st : Store) (f : BotFilters) :
    (∀ b, f.brand = some b → b ≠ "" →
      ∀ c ∈ search_cars_in_db st f, containsCI c.brand b = true) ∧
    (∀ col, f.color = some col → col ≠ "" →
      ∀ c ∈ search_cars_in_db st f, containsCI c.color col = true) ∧
    (∀ m, f.max_price = some m → m ≠ 0 →
      ∀ c ∈ search_cars_in_db st f, (c.price : Int) ≤ m) ∧
    (search_cars_in_db st f).Pairwise (fun a b => a.price ≤ b.price) ∧
    (search_cars_in_db st f).length ≤ 5 := by
  refine ⟨?_, ?_, ?_, ?_, List.length_take_le _ _⟩
  · intro b hb hbne c hc
    have h1 := mem_search_chain hc
    have h2 := mem_applyColorFilter (mem_applyPriceFilter h1)
    rw [hb] at h2
    exact applyBrandFilter_contains hbne h2
  · intro col hcol hcne c hc
    have h1 := mem_applyPriceFilter (mem_search_chain hc)
    rw [hcol] at h1
    exact applyColorFilter_contains hcne h1
  · intro m hm hmne c hc
    have h1 := mem_search_chain hc
    rw [hm] at h1
    exact applyPriceFilter_le hmne h1
  · exact (List.sorted_insertionSort priceAsc _).sublist (List.take_sublist _ _)

def demoBotFilters : BotFilters := ⟨some "toy", none, some 2000000⟩

/-- Witness for C9 (amended) at a concrete lookup: a nonempty brand
filter and a nonzero price cap over the demo store. -/
theorem bot_search_filters_witness :
    (∀ c ∈ search_cars_in_db demoStore demoBotFilters,
      containsCI c.brand "toy" = true) ∧
    (∀ c ∈ search_cars_in_db demoStore demoBotFilters,
      (c.price : Int) ≤ 2000000) ∧
    (search_cars_in_db demoStore demoBotFilters).length ≤ 5 :=
  ⟨(bot_search_filters demoStore demoBotFilters).1 "toy" rfl (by decide),
   (bot_search_filters demoStore demoBotFilters).2.2.1 2000000 rfl (by decide),
   (bot_search_filters demoStore demoBotFilters).2.2.2.2⟩

/-- C10. A present-but-falsy filter field is treated as absent: an
empty-string brand or colour adds no predicate and `max_price = 0` adds
no price bound — each call equals the call with the field omitted. -/
theorem bot_falsy_filters_ignored (st : Store) (f : BotFilters) :
    search_cars_in_db st { f with brand := some "" }
      = search_cars_in_db st { f with brand := none } ∧
    search_cars_in_db st { f with color := some "" }
      = search_cars_in_db st { f with color := none } ∧
    search_cars_in_db st { f with max_price := some 0 }
      = search_cars_in_db st { f with max_price := none } := by
  refine ⟨?_, ?_, ?_⟩ <;>
    simp [search_cars_in_db, applyBrandFilter, applyColorFilter, applyPriceFilter]

/-! ## The scheduler loop (scraper/main.py 51–77, 193–198, 241–277)

`scrape_carsensor` wraps the fetch and the whole extraction in its own
`try`: `httpx.HTTPError` (including the `raise_for_status` on a non-2xx
status) and any other exception are caught *inside* it, logged, and turn
into an empty result list — no exception escapes to the loop.  The main
loop saves a nonempty batch (a `save_cars` exception escapes the
iteration body and hits the 60 s backoff) and sleeps 3600 s otherwise.
-/

/-- The outcome of the single outbound fetch. -/
inductive FetchOutcome where
  | success (page : List Fragment)
  | httpError
  | unexpectedError
deriving DecidableEq

/-- The loggable events an iteration emits. -/
inductive LogEvent where
  | fetchErrorLogged
  | unexpectedErrorLogged
  | noCarsWarning
  | savedInfo
  | mainLoopErrorLogged
deriving DecidableEq

/-- The `scrape_carsensor` coroutine (scraper/main.py 51–198) as a function of the
fetch outcome: the extracted batch plus what it logged. -/
def scrape_carsensor : FetchOutcome → List CarData × List LogEvent
  | .success page => (extractPage page, [])
  | .httpError => ([], [.fetchErrorLogged])
  | .unexpectedError => ([], [.unexpectedErrorLogged])

/-- What one loop iteration leaves behind: the durable store, the seconds
slept before the next iteration, and the iteration's log. -/
structure IterationResult where
  store : Store
  sleepSeconds : Nat
  logs : List LogEvent
deriving DecidableEq

/-- One iteration of the `while True` loop (scraper/main.py 249–277): an
empty scrape result warns and sleeps the normal 3600 s; a nonempty batch
is saved — a save error escapes into the loop's `except`, logs, and
sleeps the 60 s backoff. -/
def mainIteration (f : FetchOutcome) (st : Store) (inject : Option String) :
    IterationResult :=
  let sc := scrape_carsensor f
  if sc.1.isEmpty then ⟨st, 3600, sc.2 ++ [.noCarsWarning]⟩
  else
    let r := save_cars st sc.1 inject
    match r.err with
    | none => ⟨r.store, 3600, sc.2 ++ [.savedInfo]⟩
    | some _ => ⟨r.store, 60, sc.2 ++ [.mainLoopErrorLogged]⟩

/-- C8 counterexample. A failed fetch is caught inside
`scrape_carsensor` and becomes an empty batch, so the loop takes the
ordinary no-cars path and sleeps the *normal* 3600 s period — not the
60 s backoff the claim asserts. -/
theorem fetch_backoff_claim_false :
    (mainIteration .httpError demoStore none).sleepSeconds = 3600 ∧
    (mainIteration .httpError demoStore none).sleepSeconds ≠ 60 := by
  exact ⟨rfl, by decide⟩

/-- C8 (amended). When the fetch fails with a non-2xx status or a
transport error, the iteration is aborted with no rows written and the
failure is logged, but the scheduler waits the *normal* period (3600 s),
not the short backoff: the fetch error never escapes `scrape_carsensor`,
so the loop sees an ordinary empty iteration. -/
theorem fetch_failure_sleeps_normal (st : Store) (inject : Option String) :
    mainIteration .httpError st inject
      = ⟨st, 3600, [.fetchErrorLogged, .noCarsWarning]⟩ := rfl

/-! ## Price-parsing claims (C3) -/

/-- C3 counterexample. With main span `"48"` and sub span `"2a"` the
concatenation `"48.2a"` is unparsable, yet the price is not the fixed
fallback 1,500,000: the `except ValueError` branch recovers
`int("48") * 10000 = 480000` because the main span passes `isdigit()`. -/
theorem price_fallback_claim_false :
    floatParsable "48" (effectiveSub (some "2a")) = false ∧
    parsePriceE (some "48") (some "2a") = .ok 480000 ∧
    (480000 : Nat) ≠ 1500000 :=
  ⟨rfl, rfl, by decide⟩

theorem pyIsDigit_of_intParsable {s : String} (h : intParsable s = true) :
    pyIsDigit s = true := by
  unfold intParsable at h
  unfold pyIsDigit
  rw [Bool.and_eq_true] at h ⊢
  obtain ⟨h1, h2⟩ := h
  refine ⟨h1, ?_⟩
  rw [List.all_eq_true] at h2 ⊢
  intro c hc
  simp [pyDigitChar, h2 c hc]

/-- C3 (amended). For a present main span the price follows the code's
float route: the decimal concatenation `"<major>.<minor>"` is converted
to binary64, multiplied by 10000.0 in binary64, and truncated.  On the
spec's examples this equals the exact decimal value — `"48"`/`"2"` gives
482,000 and `"100"` with no sub span gives 1,000,000 — but the double
rounding shows through on longer spans: `"4999"`/`"98"` yields
49,999,799 where exact decimal truncation would give 49,999,800, and
`"0"` with a seventeen-nine sub span yields 10,000 where exact decimal
gives 9,999.  When the concatenation is unparsable, the price is
`int(main) * 10000` if the main span is an integer numeral, and the
fixed fallback 1,500,000 only when the main span fails the digit test. -/
theorem parse_price_rounding (m : String) (sub : Option String) :
    (floatParsable m (effectiveSub sub) = false → intParsable m = true →
      parsePriceE (some m) sub = .ok (digitsToNat m * 10000)) ∧
    (floatParsable m (effectiveSub sub) = false → pyIsDigit m = false →
      parsePriceE (some m) sub = .ok 1500000) ∧
    parsePriceE (some "48") (some "2") = .ok 482000 ∧
    parsePriceE (some "100") none = .ok 1000000 ∧
    (parsePriceE (some "4999") (some "98") = .ok 49999799 ∧
      specDecimalTimes10000 "4999" "98" = 49999800) ∧
    (parsePriceE (some "0") (some "99999999999999999") = .ok 10000 ∧
      specDecimalTimes10000 "0" "99999999999999999" = 9999) := by
  refine ⟨?_, ?_, rfl, rfl, ⟨rfl, rfl⟩, ⟨rfl, rfl⟩⟩
  · intro hf hi
    simp [parsePriceE, hf, pyIsDigit_of_intParsable hi, hi]
  · intro hf hd
    simp [parsePriceE, hf, hd]

/-- Witness for C3 (amended): the unparsable span `"48"`/`"2a"` with a
digit-test-passing main span takes the `int(main) * 10000` tier. -/
theorem parse_price_rounding_witness :
    floatParsable "48" (effectiveSub (some "2a")) = false ∧
    intParsable "48" = true ∧
    parsePriceE (some "48") (some "2a") = .ok (digitsToNat "48" * 10000) :=
  ⟨rfl, rfl, (parse_price_rounding "48" (some "2a")).1 rfl rfl⟩

/-! ## Fragment-isolation claims (C6) -/

/-- A fragment whose price extraction raises: the main price span text
`"²"` passes Python's `isdigit()` but `int()` rejects it, so the
`except ValueError` recovery itself raises and the per-fragment handler
catches it. -/
def raiserFragment : Fragment :=
  ⟨[], none, some ⟨some ⟨some "/usedcar/r.html", "Fit"⟩, "Fit"⟩, [],
    some "²", none, []⟩

/-- A fragment with no `h3.cassetteMain__title`: skipped by `continue`,
not by an exception. -/
def titlelessFragment : Fragment :=
  ⟨[], none, none, [], some "48", some "2", []⟩

/-- A fully well-formed fragment. -/
def goodFragment : Fragment :=
  ⟨["トヨタ"], none, some ⟨some ⟨some "/usedcar/g.html", "Prius S"⟩, "Prius S"⟩,
    [⟨some "年式(初度登録)", some "2019(H31)"⟩], some "120", none, ["白"]⟩

/-- A second well-formed fragment. -/
def goodFragment2 : Fragment :=
  ⟨["ホンダ"], none, some ⟨some ⟨some "/usedcar/h.html", "Fit RS"⟩, "Fit RS"⟩,
    [], some "48", some "2", ["赤"]⟩

/-- C6 counterexample. A page with two fragments of which exactly one
raises yields zero extracted listings, not N−1 = 1, because the other
fragment is discarded by the missing-title `continue`, not by an
exception — the claim's "produces the remaining N−1 fragments" fails. -/
theorem extract_isolation_claim_false :
    ([raiserFragment, titlelessFragment].countP
        fun f => extractFragment f == .raised) = 1 ∧
    (extractPage [raiserFragment, titlelessFragment]).length ≠ 2 - 1 := by
  decide

theorem extractPage_all_ok {l : List Fragment}
    (h : ∀ f ∈ l, ∃ c, extractFragment f = .extracted c) :
    (extractPage l).length = l.length := by
  induction l with
  | nil => rfl
  | cons f rest ih =>
    obtain ⟨c, hc⟩ := h f (List.mem_cons_self f rest)
    have ih' := ih fun g hg => h g (List.mem_cons_of_mem f hg)
    simp only [extractPage, List.filterMap_cons, hc] at ih' ⊢
    simp [ih']

/-- C6 (amended). A raising fragment is skipped in isolation: the
page's results are exactly the results of the fragments around it, and
when every other fragment extracts successfully the page yields N−1
listings.  (A non-raising fragment can still be dropped by the
missing-title/missing-link `continue`, so "exactly one raises" alone does
not force N−1 results — see the counterexample.) -/
theorem extract_isolation (pre post : List Fragment) (bad : Fragment)
    (hbad : extractFragment bad = .raised)
    (hok : ∀ f ∈ pre ++ post, ∃ c, extractFragment f = .extracted c) :
    extractPage (pre ++ bad :: post) = extractPage pre ++ extractPage post ∧
    (extractPage (pre ++ bad :: post)).length = pre.length + post.length := by
  have hsplit :
      extractPage (pre ++ bad :: post) = extractPage pre ++ extractPage post := by
    simp [extractPage, List.filterMap_append, List.filterMap_cons, hbad]
  refine ⟨hsplit, ?_⟩
  rw [hsplit, List.length_append,
    extractPage_all_ok fun f hf => hok f (List.mem_append_left _ hf),
    extractPage_all_ok fun f hf => hok f (List.mem_append_right _ hf)]

/-- Witness for C6 (amended): a three-fragment page whose middle fragment
raises yields exactly the two listings of its neighbours. -/
theorem extract_isolation_witness :
    extractFragment raiserFragment = .raised ∧
    (extractPage ([goodFragment] ++ raiserFragment :: [goodFragment2])).length
      = [goodFragment].length + [goodFragment2].length :=
  ⟨by decide,
    (extract_isolation [goodFragment] [goodFragment2] raiserFragment (by decide)
      (by
        intro f hf
        simp only [List.mem_append, List.mem_singleton] at hf
        rcases hf with rfl | rfl
        · exact ⟨_, rfl⟩
        · exact ⟨_, rfl⟩)).2⟩

/-! ## Colour-extraction claims (C7) -/

/-- C7 counterexample. Body-info items `["銀", "赤"]`: the first item
matches the table key `銀` (canonical `Silver`), so the claim's
first-match-wins rule answers `Silver`; the code's loop only breaks on a
non-`Silver` value, scans on, and answers `Red`. -/
theorem color_first_match_claim_false :
    specColorFirstMatch ["銀", "赤"] = "Silver" ∧
    extractColor ["銀", "赤"] = "Red" ∧
    ("Red" : String) ≠ "Silver" := by decide

/-- C7 (amended). The extracted colour is the canonical colour of the
first body-info item whose first-matching table key maps to something
other than the fallback `'Silver'`; an item matching only Silver-mapped
keys does not stop the scan, so `'Silver'` results exactly when no item
yields a non-Silver colour (including when nothing matches at all); the
result is never empty. -/
theorem extractColor_first_non_silver (items : List String) :
    extractColor items = firstNonSilverColor items ∧
    extractColor items ≠ "" := by
  refine ⟨extractColorLoop_silver items, ?_⟩
  rw [extractColor, extractColorLoop_silver items, firstNonSilverColor]
  cases hfs : items.findSome? fun t => (colorOfItem t).filter fun c => c ≠ "Silver" with
  | none => decide
  | some c =>
    obtain ⟨t, _, hc⟩ := List.exists_of_findSome?_eq_some hfs
    cases ho : colorOfItem t with
    | none => rw [ho] at hc; exact absurd hc (by simp [Option.filter])
    | some x =>
      rw [ho] at hc
      have hx : x = c := by
        by_cases hxs : x = "Silver"
        · exact absurd hc (by simp [Option.filter, hxs])
        · simpa [Option.filter, hxs] using hc
      exact Option.getD_some ▸ (hx ▸ colorOfItem_nonempty ho)

/-- Witness instance of C7 (amended) at a concrete body-info list: a
Silver-keyed item followed by a Gold-keyed item. -/
theorem extractColor_first_non_silver_witness :
    extractColor ["銀", "ゴールド"] = firstNonSilverColor ["銀", "ゴールド"] ∧
    extractColor ["銀", "ゴールド"] ≠ "" :=
  extractColor_first_non_silver ["銀", "ゴールド"]

end AutoAssist
